import Mathlib

/-!
Verification of the WeChat-Pay client library core (`src/lib.rs`):
the signing algorithm `get_sign`, the XML codec `to_xml_str` /
`from_xml_str`, the parameter validator `check_params`, and the
retrying request executor `request` / `pay`.

Rust `BTreeMap<String, String>` is embedded as a key-sorted association
list (`ParamTable`) with `insertPair` as the map insertion; iteration
order of the list is the map's ascending-key iteration order.  The
external crates the code calls (`url::form_urlencoded`, `md5`, `xml`)
are embedded by executable Lean definitions of their documented
behaviour on the inputs this library produces (flat XML fragments,
UTF-8 strings).
-/

namespace Wechatpay

/-- A `BTreeMap<String, String>`: association list kept sorted by key. -/
abbrev ParamTable := List (String × String)

/-- First-match lookup, i.e. `BTreeMap::get` (on a sorted unique list the
first match is the only one). -/
def lookupParam : ParamTable → String → Option String
  | [], _ => none
  | (k, v) :: rest, key => if key = k then some v else lookupParam rest key

/-- `params.get(key).unwrap_or(default)`. -/
def getD (t : ParamTable) (k d : String) : String := (lookupParam t k).getD d

/-- Lexicographic order on code points; for UTF-8 strings this agrees
with Rust's byte-wise `Ord` on `String`. -/
def charsLt : List Char → List Char → Bool
  | _, [] => false
  | [], _ :: _ => true
  | a :: as, b :: bs =>
    a.toNat < b.toNat || (a.toNat == b.toNat && charsLt as bs)

/-- Rust's `String` ordering. -/
def strLt (a b : String) : Bool := charsLt a.data b.data

/-- `BTreeMap::insert`: replace the value at an existing key, otherwise
insert in ascending key position. -/
def insertPair (k v : String) : ParamTable → ParamTable
  | [] => [(k, v)]
  | (k', v') :: rest =>
    if strLt k k' then (k, v) :: (k', v') :: rest
    else if k = k' then (k, v) :: rest
    else (k', v') :: insertPair k v rest

/-- Build a table by successive `insert`s, as the Rust tests do. -/
def tableOf (l : List (String × String)) : ParamTable :=
  l.foldl (fun t p => insertPair p.1 p.2 t) []

/-! ## UTF-8 (Rust `String` / `Vec<u8>` boundary) -/

/-- UTF-8 encoding of one scalar value. -/
def utf8EncodeChar (c : Char) : List Nat :=
  let n := c.toNat
  if n < 0x80 then [n]
  else if n < 0x800 then [0xC0 + n / 64, 0x80 + n % 64]
  else if n < 0x10000 then [0xE0 + n / 4096, 0x80 + (n / 64) % 64, 0x80 + n % 64]
  else [0xF0 + n / 262144, 0x80 + (n / 4096) % 64, 0x80 + (n / 64) % 64, 0x80 + n % 64]

/-- The UTF-8 bytes of a string (`str::as_bytes`). -/
def utf8Encode (s : String) : List Nat :=
  s.data.flatMap utf8EncodeChar

/-- Strict UTF-8 decoding of a byte sequence, `String::from_utf8`:
rejects stray continuation bytes, overlong forms, surrogates and
code points above `0x10FFFF`. -/
def utf8DecodeChars : List Nat → Option (List Char)
  | [] => some []
  | b :: rest =>
    if b < 0x80 then
      (utf8DecodeChars rest).map (fun cs => Char.ofNat b :: cs)
    else if b < 0xC2 then none
    else if b < 0xE0 then
      match rest with
      | b2 :: r2 =>
        if 0x80 ≤ b2 ∧ b2 < 0xC0 then
          (utf8DecodeChars r2).map
            (fun cs => Char.ofNat ((b - 0xC0) * 64 + (b2 - 0x80)) :: cs)
        else none
      | [] => none
    else if b < 0xF0 then
      match rest with
      | b2 :: b3 :: r3 =>
        let cp := (b - 0xE0) * 4096 + (b2 - 0x80) * 64 + (b3 - 0x80)
        if (0x80 ≤ b2 ∧ b2 < 0xC0) ∧ (0x80 ≤ b3 ∧ b3 < 0xC0) ∧
           0x800 ≤ cp ∧ ¬ (0xD800 ≤ cp ∧ cp < 0xE000) then
          (utf8DecodeChars r3).map (fun cs => Char.ofNat cp :: cs)
        else none
      | _ => none
    else if b < 0xF5 then
      match rest with
      | b2 :: b3 :: b4 :: r4 =>
        let cp := (b - 0xF0) * 262144 + (b2 - 0x80) * 4096 + (b3 - 0x80) * 64 + (b4 - 0x80)
        if (0x80 ≤ b2 ∧ b2 < 0xC0) ∧ (0x80 ≤ b3 ∧ b3 < 0xC0) ∧
           (0x80 ≤ b4 ∧ b4 < 0xC0) ∧ 0x10000 ≤ cp ∧ cp ≤ 0x10FFFF then
          (utf8DecodeChars r4).map (fun cs => Char.ofNat cp :: cs)
        else none
      | _ => none
    else none

/-- `String::from_utf8`: `some` on valid UTF-8, `none` where Rust's
`.unwrap()` would panic. -/
def utf8Decode (bs : List Nat) : Option String :=
  (utf8DecodeChars bs).map (fun cs => String.mk cs)

/-! ## `url::form_urlencoded` serializer -/

/-- Is this byte emitted verbatim by the form-urlencoded serializer?
(`A-Z a-z 0-9 * - . _`). -/
def formSafeByte (b : Nat) : Bool :=
  (0x41 ≤ b && b ≤ 0x5A) || (0x61 ≤ b && b ≤ 0x7A) || (0x30 ≤ b && b ≤ 0x39) ||
  b == 0x2A || b == 0x2D || b == 0x2E || b == 0x5F

/-- One uppercase hexadecimal digit. -/
def hexDigit (n : Nat) : Char :=
  if n < 10 then Char.ofNat (0x30 + n) else Char.ofNat (0x41 + (n - 10))

/-- `%XX` escape of one byte, uppercase hex. -/
def percentEscape (b : Nat) : List Char :=
  ['%', hexDigit (b / 16), hexDigit (b % 16)]

/-- Serialize one byte: space becomes `+`, safe bytes pass through,
everything else is percent-escaped. -/
def formSerializeByte (b : Nat) : List Char :=
  if b == 0x20 then ['+']
  else if formSafeByte b then [Char.ofNat b]
  else percentEscape b

/-- `form_urlencoded::byte_serialize` over the UTF-8 bytes of a string. -/
def formSerialize (s : String) : String :=
  String.mk ((utf8Encode s).flatMap formSerializeByte)

/-- `Serializer::append_pair` for a whole pair list: `k=v` pairs joined
by `&`. -/
def formUrlencode : List (String × String) → String
  | [] => ""
  | [(k, v)] => formSerialize k ++ "=" ++ formSerialize v
  | (k, v) :: rest => formSerialize k ++ "=" ++ formSerialize v ++ "&" ++ formUrlencode rest

/-! ## MD5 (the `md5` crate) -/

/-- Truncate to a 32-bit word. -/
def w32 (n : Nat) : Nat := n % 4294967296

/-- 32-bit left rotation (argument assumed `< 2^32`). -/
def rotl32 (x n : Nat) : Nat := w32 (x <<< n) ||| (x >>> (32 - n))

/-- MD5 sine-derived round constants `K[0..63]`. -/
def md5K : List Nat :=
  [0xd76aa478, 0xe8c7b756, 0x242070db, 0xc1bdceee,
   0xf57c0faf, 0x4787c62a, 0xa8304613, 0xfd469501,
   0x698098d8, 0x8b44f7af, 0xffff5bb1, 0x895cd7be,
   0x6b901122, 0xfd987193, 0xa679438e, 0x49b40821,
   0xf61e2562, 0xc040b340, 0x265e5a51, 0xe9b6c7aa,
   0xd62f105d, 0x02441453, 0xd8a1e681, 0xe7d3fbc8,
   0x21e1cde6, 0xc33707d6, 0xf4d50d87, 0x455a14ed,
   0xa9e3e905, 0xfcefa3f8, 0x676f02d9, 0x8d2a4c8a,
   0xfffa3942, 0x8771f681, 0x6d9d6122, 0xfde5380c,
   0xa4beea44, 0x4bdecfa9, 0xf6bb4b60, 0xbebfbc70,
   0x289b7ec6, 0xeaa127fa, 0xd4ef3085, 0x04881d05,
   0xd9d4d039, 0xe6db99e5, 0x1fa27cf8, 0xc4ac5665,
   0xf4292244, 0x432aff97, 0xab9423a7, 0xfc93a039,
   0x655b59c3, 0x8f0ccc92, 0xffeff47d, 0x85845dd1,
   0x6fa87e4f, 0xfe2ce6e0, 0xa3014314, 0x4e0811a1,
   0xf7537e82, 0xbd3af235, 0x2ad7d2bb, 0xeb86d391]

/-- MD5 per-round left-rotation amounts `S[0..63]`. -/
def md5S : List Nat :=
  [7, 12, 17, 22, 7, 12, 17, 22, 7, 12, 17, 22, 7, 12, 17, 22,
   5,  9, 14, 20, 5,  9, 14, 20, 5,  9, 14, 20, 5,  9, 14, 20,
   4, 11, 16, 23, 4, 11, 16, 23, 4, 11, 16, 23, 4, 11, 16, 23,
   6, 10, 15, 21, 6, 10, 15, 21, 6, 10, 15, 21, 6, 10, 15, 21]

/-- Bitwise complement within 32 bits. -/
def not32 (x : Nat) : Nat := x ^^^ 4294967295

/-- One MD5 round applied to the state `(a, b, c, d)`, with `m` the
block's word fetch. -/
def md5Round (m : Nat → Nat) (i : Nat) : Nat × Nat × Nat × Nat → Nat × Nat × Nat × Nat :=
  fun (a, b, c, d) =>
    let f :=
      if i < 16 then (b &&& c) ||| (not32 b &&& d)
      else if i < 32 then (d &&& b) ||| (not32 d &&& c)
      else if i < 48 then b ^^^ c ^^^ d
      else c ^^^ (b ||| not32 d)
    let g :=
      if i < 16 then i
      else if i < 32 then (5 * i + 1) % 16
      else if i < 48 then (3 * i + 5) % 16
      else (7 * i) % 16
    let sum := w32 (a + f + md5K.getD i 0 + m g)
    (d, w32 (b + rotl32 sum (md5S.getD i 0)), b, c)

/-- Little-endian 32-bit word from the first four bytes. -/
def leWord (bs : List Nat) : Nat :=
  bs.getD 0 0 + bs.getD 1 0 * 256 + bs.getD 2 0 * 65536 + bs.getD 3 0 * 16777216

/-- Process one 64-byte block, adding the round result into the chaining
state. -/
def md5Block (block : List Nat) : Nat × Nat × Nat × Nat → Nat × Nat × Nat × Nat :=
  fun (a0, b0, c0, d0) =>
    let m : Nat → Nat := fun i => leWord (block.drop (4 * i))
    let (a, b, c, d) := (List.range 64).foldl (fun st i => md5Round m i st) (a0, b0, c0, d0)
    (w32 (a0 + a), w32 (b0 + b), w32 (c0 + c), w32 (d0 + d))

/-- MD5 padding: `0x80`, zeros to 56 mod 64, then the bit length as
eight little-endian bytes. -/
def md5Pad (msg : List Nat) : List Nat :=
  let L := msg.length
  let zeros := (64 + 56 - (L + 1) % 64) % 64
  let bits := (8 * L) % 18446744073709551616
  msg ++ 0x80 :: List.replicate zeros 0 ++
    [bits % 256, bits / 256 % 256, bits / 65536 % 256, bits / 16777216 % 256,
     bits / 4294967296 % 256, bits / 1099511627776 % 256,
     bits / 281474976710656 % 256, bits / 72057594037927936 % 256]

/-- Little-endian bytes of one 32-bit word. -/
def wordBytes (w : Nat) : List Nat :=
  [w % 256, w / 256 % 256, w / 65536 % 256, w / 16777216 % 256]

/-- The 16 digest bytes of a message (`md5::Context::consume` then
`compute`). -/
def md5Bytes (msg : List Nat) : List Nat :=
  let padded := md5Pad msg
  let init : Nat × Nat × Nat × Nat := (0x67452301, 0xefcdab89, 0x98badcfe, 0x10325476)
  let (a, b, c, d) :=
    (List.range (padded.length / 64)).foldl
      (fun st i => md5Block ((padded.drop (64 * i)).take 64) st) init
  wordBytes a ++ wordBytes b ++ wordBytes c ++ wordBytes d

/-- `format!("\x7b:02X\x7d", byte)`: two uppercase hex digits. -/
def byteHexUpper (b : Nat) : List Char :=
  [hexDigit (b / 16), hexDigit (b % 16)]

/-- The digest rendered as 32 uppercase hex characters. -/
def md5HexUpper (msg : List Nat) : String :=
  String.mk ((md5Bytes msg).flatMap byteHexUpper)

/-! ## The signing algorithm (`get_sign`, src/lib.rs lines 324-351) -/

/-- Does a pair take part in signing? (`pair.0.ne("key") &&
pair.0.ne("sign") && !pair.1.is_empty()`). -/
def signFilter (p : String × String) : Bool :=
  p.1 != "key" && p.1 != "sign" && p.2 != ""

/-- `get_sign`: keep the non-empty, non-reserved pairs in the table's
(ascending) order, form-url-encode them with a final `key=<secret>`
pair, and render the MD5 digest of the encoded bytes in uppercase hex. -/
def get_sign (pairs : ParamTable) (api_key : String) : String :=
  let keys := (List.filter signFilter pairs).map (fun p => p.1)
  let encoded := formUrlencode (keys.map (fun k => (k, getD pairs k "")) ++ [("key", api_key)])
  md5HexUpper (utf8Encode encoded)

/-! ## XML events (the `xml` crate's pull reader, on the flat fragments
this protocol uses) -/

/-- The `xml::reader::XmlEvent`s that `from_xml_str` distinguishes.
`parseError` stands for an `Err` item of the reader's iterator. -/
inductive XmlEvent where
  | startElement (name : String)
  | endElement (name : String)
  | characters (s : String)
  | cdata (s : String)
  | parseError
  deriving DecidableEq

/-- Scan up to the first occurrence of `c`; `none` if `c` never occurs
(an unterminated construct, which the reader reports as an error). -/
def takeUntilChar (c : Char) : List Char → Option (List Char × List Char)
  | [] => none
  | x :: xs =>
    if x = c then some ([], xs)
    else
      match takeUntilChar c xs with
      | some (pre, post) => some (x :: pre, post)
      | none => none

/-- Scan up to the CDATA terminator `]]>`. -/
def takeUntilCDataEnd : List Char → Option (List Char × List Char)
  | [] => none
  | x :: xs =>
    if x = ']' ∧ xs.take 2 = [']', '>'] then some ([], xs.drop 2)
    else
      match takeUntilCDataEnd xs with
      | some (pre, post) => some (x :: pre, post)
      | none => none

/-- Local (unqualified) element name: drop any attribute text after the
first space and any namespace text up to a `:`; a trailing `/` of a
self-closing tag is also dropped. -/
def localName (cs : List Char) : String :=
  let name := cs.takeWhile (fun c => c ≠ ' ' ∧ c ≠ '\t' ∧ c ≠ '\n' ∧ c ≠ '\r' ∧ c ≠ '/')
  String.mk ((name.dropWhile (fun c => c ≠ ':')).tailD name)

/-- The event stream of the `xml` crate's pull reader, modelled for the
flat element/CDATA/text fragments this protocol exchanges.  Markup the
model does not cover (processing instructions, comments, doctypes,
unterminated constructs) is reported as `parseError`, at which point the
stream ends, like the reader's iterator after an `Err`.  The fuel is one
more than the character count; every step consumes at least one
character, so the fuel never runs out. -/
def xmlEventsGo : Nat → List Char → List XmlEvent
  | 0, _ => [XmlEvent.parseError]
  | Nat.succ _, [] => []
  | Nat.succ fuel, c :: rest =>
    if c = '<' then
      match rest with
      | [] => [XmlEvent.parseError]
      | c2 :: r2 =>
        if c2 = '/' then
          match takeUntilChar '>' r2 with
          | some (name, r3) => XmlEvent.endElement (localName name) :: xmlEventsGo fuel r3
          | none => [XmlEvent.parseError]
        else if c2 = '!' then
          if r2.take 7 = "[CDATA[".data then
            match takeUntilCDataEnd (r2.drop 7) with
            | some (content, r3) => XmlEvent.cdata (String.mk content) :: xmlEventsGo fuel r3
            | none => [XmlEvent.parseError]
          else [XmlEvent.parseError]
        else if c2 = '?' then [XmlEvent.parseError]
        else
          match takeUntilChar '>' rest with
          | some (name, r3) => XmlEvent.startElement (localName name) :: xmlEventsGo fuel r3
          | none => [XmlEvent.parseError]
    else
      XmlEvent.characters (String.mk ((c :: rest).takeWhile (fun x => x ≠ '<'))) ::
        xmlEventsGo fuel ((c :: rest).dropWhile (fun x => x ≠ '<'))

/-- The reader's event stream for a document. -/
def xmlEvents (s : String) : List XmlEvent :=
  xmlEventsGo (s.data.length + 1) s.data

/-- The event loop of `from_xml_str` (src/lib.rs lines 359-373): a
start element updates the current tag, CDATA content is stored under the
current tag, an `Err` event breaks out of the loop, and every other
event is ignored. -/
def from_xml_events (tag : String) (pairs : ParamTable) : List XmlEvent → ParamTable
  | [] => pairs
  | XmlEvent.startElement name :: rest => from_xml_events name pairs rest
  | XmlEvent.cdata value :: rest => from_xml_events tag (insertPair tag value pairs) rest
  | XmlEvent.parseError :: _ => pairs
  | _ :: rest => from_xml_events tag pairs rest

/-- `from_xml_str`: fold the reader's events into a `BTreeMap`. -/
def from_xml_str (data : String) : ParamTable :=
  from_xml_events "" [] (xmlEvents data)

/-! ## XML writing (`to_xml_str`, src/lib.rs lines 378-393) -/

/-- The `xml` crate's text escaping: the five XML special characters
become entity references, everything else passes through. -/
def escapeChar (c : Char) : List Char :=
  if c = '<' then "&lt;".data
  else if c = '>' then "&gt;".data
  else if c = '&' then "&amp;".data
  else if c = '\'' then "&apos;".data
  else if c = '"' then "&quot;".data
  else [c]

/-- Escape a whole character-data string. -/
def escapeChars : List Char → List Char
  | [] => []
  | c :: rest => escapeChar c ++ escapeChars rest

/-- One `<key>value</key>` child element per pair, in table order. -/
def xmlItems : ParamTable → List Char
  | [] => []
  | (k, v) :: rest =>
    '<' :: k.data ++ '>' :: escapeChars v.data ++ '<' :: '/' :: k.data ++ '>' :: xmlItems rest

/-- `to_xml_str`: a bare `<xml>` root (no XML declaration) holding one
child element per pair, each child containing the escaped value as
character data. -/
def to_xml_str (pairs : ParamTable) : String :=
  String.mk ('<' :: 'x' :: 'm' :: 'l' :: '>' :: xmlItems pairs ++ "</xml>".data)

/-! ## Parameter validation (`check_params`, src/lib.rs lines 91-110) -/

/-- `ParamsCheckType`. -/
inductive ParamsCheckType where
  | Required
  | Forbidden
  deriving DecidableEq

/-- `WechatpayError` (curl errors carry an abstract error code). -/
inductive WechatpayError where
  | MissingField (name : String)
  | RedundantField (name : String)
  | Curl (e : Nat)
  | Request
  | Unknown
  deriving DecidableEq

/-- `check_params`: walk the key list in order; the first key whose
value is absent or empty produces `MissingField` in `Required` mode and
`RedundantField` in `Forbidden` mode — the emptiness test itself is the
same in both modes. -/
def check_params (params : ParamTable) (keys : List String)
    (check_type : ParamsCheckType) : Option WechatpayError :=
  match keys with
  | [] => none
  | k :: rest =>
    if getD params k "" = "" then
      some (match check_type with
            | ParamsCheckType.Required => WechatpayError.MissingField k
            | ParamsCheckType.Forbidden => WechatpayError.RedundantField k)
    else check_params params rest check_type

/-! ## Trade types and endpoints -/

/-- `TradeType`. -/
inductive TradeType where
  | Micro
  | Jsapi
  | Native
  | Qrcode
  | App
  deriving DecidableEq

/-- `TradeType::to_string`. -/
def tradeTypeStr : TradeType → String
  | TradeType.Micro => "MICRO"
  | TradeType.Jsapi => "JSAPI"
  | TradeType.Native => "NATIVE"
  | TradeType.Qrcode => "NATIVE"
  | TradeType.App => "APP"

/-- `UNIFIEDORDER_URL`. -/
def UNIFIEDORDER_URL : String := "https://api.mch.weixin.qq.com/pay/unifiedorder"

/-- `MICROPAY_URL`. -/
def MICROPAY_URL : String := "https://api.mch.weixin.qq.com/pay/micropay"

/-- `ORDERQUERY_URL`. -/
def ORDERQUERY_URL : String := "https://api.mch.weixin.qq.com/pay/orderquery"

/-! ## The request executor (`request`, src/lib.rs lines 112-170)

The HTTP transport is embedded as an explicit sequence of per-attempt
outcomes: what `handle.perform()` and `handle.response_code()` return,
and which bytes the write callback collected, for each loop iteration. -/

/-- The observable outcome of one loop iteration's transfer. -/
structure Attempt where
  performError : Option Nat
  responseCode : Except Nat Nat
  body : List Nat

/-- The status the loop tests: the response code, or `0` when
`response_code()` itself errred. -/
def statusOf (a : Attempt) : Nat :=
  match a.responseCode with
  | Except.ok code => code
  | Except.error _ => 0

/-- Does this attempt end the loop (`status_code == 200 ||
status_code == 201`)? -/
def isSuccess (a : Attempt) : Bool :=
  statusOf a == 200 || statusOf a == 201

/-- How one iteration updates the captured error `err`: a `perform`
error overwrites it, then a `response_code` error overwrites it again. -/
def attemptErr (a : Attempt) (err : WechatpayError) : WechatpayError :=
  let err1 := match a.performError with
    | some e => WechatpayError.Curl e
    | none => err
  match a.responseCode with
  | Except.error e => WechatpayError.Curl e
  | Except.ok _ => err1

/-- The retry loop of `request`.  `none` is the outcome in which the
code does not return at all — `String::from_utf8(data).unwrap()`
panicking on a non-UTF-8 success body.  The second component counts the
attempts performed. -/
def requestLoop (transport : Nat → Attempt) :
    Nat → Nat → WechatpayError → Option (Except WechatpayError ParamTable) × Nat
  | 0, used, err => (some (Except.error err), used)
  | Nat.succ remaining, used, err =>
    let a := transport used
    let err' := attemptErr a err
    if isSuccess a then
      match utf8Decode a.body with
      | some s => (some (Except.ok (from_xml_str s)), used + 1)
      | none => (none, used + 1)
    else requestLoop transport remaining (used + 1) err'

/-- `request`: sign the parameters, insert the signature, serialize the
body, then run up to `retries.unwrap_or(1)` POST attempts, stopping at
the first status 200/201 to decode its body; when every attempt fails,
the most recently captured error (initially `WechatpayError::Request`)
is returned.  The pair's second component is the number of attempts
performed. -/
def request (api_key : String) (params : ParamTable) (retries : Option Nat)
    (transport : Nat → Attempt) : Option (Except WechatpayError ParamTable) × Nat :=
  let sign_str := get_sign params api_key
  let params' := insertPair "sign" sign_str params
  let _xml_str := to_xml_str params'
  requestLoop transport (retries.getD 1) 0 WechatpayError.Request

/-- The error variable's value after the loop has run the attempts
`used, used+1, ...` (`rem` of them) starting from `err`: each attempt's
errors overwrite the previous value, in loop order. -/
def finalErrFrom (transport : Nat → Attempt) : Nat → Nat → WechatpayError → WechatpayError
  | _, 0, err => err
  | used, Nat.succ rem, err =>
    finalErrFrom transport (used + 1) rem (attemptErr (transport used) err)

/-- The error surfaced when attempts `0 ≤ i < n` (in order) all fail:
the last transport error captured, or the generic
`WechatpayError::Request` it starts from when none was. -/
def finalErr (transport : Nat → Attempt) (n : Nat) : WechatpayError :=
  finalErrFrom transport 0 n WechatpayError.Request

/-! ## `pay` and its wrappers (src/lib.rs lines 173-241) -/

/-- The client configuration (`WechatpayClient`). -/
structure WechatpayClient where
  appid : String
  mch_id : String
  api_key : String
  notify_url : String
  cert : String

/-- `pay`: forbid `key`/`sign`, require the common fields and the
per-trade-type field, then populate the protocol fields and delegate to
`request`.  The random `nonce_str` is passed in explicitly, and the
transport as in `request`. -/
def pay (c : WechatpayClient) (params : ParamTable) (trade_type : TradeType)
    (retries : Option Nat) (nonce : String) (transport : Nat → Attempt) :
    Option (Except WechatpayError ParamTable) :=
  match check_params params ["key", "sign"] ParamsCheckType.Forbidden with
  | some e => some (Except.error e)
  | none =>
  match check_params params ["body", "out_trade_no", "total_fee", "spbill_create_ip"]
      ParamsCheckType.Required with
  | some e => some (Except.error e)
  | none =>
  match (match trade_type with
         | TradeType.Native => check_params params ["product_id"] ParamsCheckType.Required
         | TradeType.Jsapi => check_params params ["openid"] ParamsCheckType.Required
         | TradeType.Micro => check_params params ["auth_code"] ParamsCheckType.Required
         | _ => none) with
  | some e => some (Except.error e)
  | none =>
    let url := if trade_type = TradeType.Micro then MICROPAY_URL else UNIFIEDORDER_URL
    let _ := url
    let body := getD params "body" "Test Request"
    let params := insertPair "trade_type" (tradeTypeStr trade_type) params
    let params := insertPair "appid" c.appid params
    let params := insertPair "mch_id" c.mch_id params
    let params := insertPair "nonce_str" nonce params
    let params := insertPair "body" body params
    let params := if trade_type ≠ TradeType.Micro
      then insertPair "notify_url" c.notify_url params
      else params
    (request c.api_key params retries transport).1

/-- `micro_pay`. -/
def micro_pay (c : WechatpayClient) (params : ParamTable) (retries : Option Nat)
    (nonce : String) (transport : Nat → Attempt) :=
  pay c params TradeType.Micro retries nonce transport

/-- `jsapi_pay`. -/
def jsapi_pay (c : WechatpayClient) (params : ParamTable) (retries : Option Nat)
    (nonce : String) (transport : Nat → Attempt) :=
  pay c params TradeType.Jsapi retries nonce transport

/-- `qrcode_pay`. -/
def qrcode_pay (c : WechatpayClient) (params : ParamTable) (retries : Option Nat)
    (nonce : String) (transport : Nat → Attempt) :=
  pay c params TradeType.Qrcode retries nonce transport

/-- `app_pay`. -/
def app_pay (c : WechatpayClient) (params : ParamTable) (retries : Option Nat)
    (nonce : String) (transport : Nat → Attempt) :=
  pay c params TradeType.App retries nonce transport

/-! ## Auxiliary definitions for the statements -/

/-- Event processing without the early exit: every event is folded,
errors included (they change nothing).  Used to state that the break on
the first error is the same as truncating the stream there. -/
def from_xml_events_total (tag : String) (pairs : ParamTable) : List XmlEvent → ParamTable
  | [] => pairs
  | XmlEvent.startElement name :: rest => from_xml_events_total name pairs rest
  | XmlEvent.cdata value :: rest => from_xml_events_total tag (insertPair tag value pairs) rest
  | _ :: rest => from_xml_events_total tag pairs rest

/-- No `<` is immediately followed by `!`, so the character stream can
contain no CDATA section. -/
def noBang : List Char → Bool
  | [] => true
  | [_] => true
  | a :: b :: rest => !(a = '<' && b = '!') && noBang (b :: rest)

/-- The gateway response from the repository's `test_from_xml_str` test:
CDATA-wrapped values throughout except the plain-text
`<total_fee>1</total_fee>`. -/
def sampleResponseXml : String :=
"
<xml>
   <return_code><![CDATA[SUCCESS]]></return_code>
   <return_msg><![CDATA[OK]]></return_msg>
   <appid><![CDATA[wx2421b1c4370ec43b]]></appid>
   <mch_id><![CDATA[10000100]]></mch_id>
   <device_info><![CDATA[1000]]></device_info>
   <nonce_str><![CDATA[TN55wO9Pba5yENl8]]></nonce_str>
   <sign><![CDATA[BDF0099C15FF7BC6B1585FBB110AB635]]></sign>
   <result_code><![CDATA[SUCCESS]]></result_code>
   <openid><![CDATA[oUpF8uN95-Ptaags6E_roPHg7AG0]]></openid>
   <is_subscribe><![CDATA[Y]]></is_subscribe>
   <trade_type><![CDATA[APP]]></trade_type>
   <bank_type><![CDATA[CCB_DEBIT]]></bank_type>
   <total_fee>1</total_fee>
   <fee_type><![CDATA[CNY]]></fee_type>
   <transaction_id><![CDATA[1008450740201411110005820873]]></transaction_id>
   <out_trade_no><![CDATA[1415757673]]></out_trade_no>
   <attach><![CDATA[订单额外描述]]></attach>
   <time_end><![CDATA[20141111170043]]></time_end>
   <trade_state><![CDATA[SUCCESS]]></trade_state>
</xml>
"

/-- The signing table of the repository's `test_sign` test. -/
def sampleSignTable : ParamTable :=
  tableOf [("appid", "wxd930ea5d5a258f4f"), ("mch_id", "10000100"),
           ("device_info", "1000"), ("body", "test"), ("nonce_str", "ibuaiVcKdpRxkhJA")]

/-- The secret key of the repository's `test_sign` test. -/
def sampleApiKey : String := "192006250b4c09247ec02edce69f6a2d"

/-- A transport whose first two attempts fail with HTTP 500 and whose
third answers 200 with the body `<xml><result_code><![CDATA[SUCCESS]]>
</result_code></xml>`. -/
def transportThirdTimeLucky : Nat → Attempt := fun i =>
  if i < 2 then { performError := none, responseCode := Except.ok 500, body := [] }
  else { performError := none, responseCode := Except.ok 200,
         body := utf8Encode "<xml><result_code><![CDATA[SUCCESS]]></result_code></xml>" }

/-- A transport that always fails: attempt 0 with a transport error
(code 7), later attempts with HTTP 500. -/
def transportAlwaysFailing : Nat → Attempt := fun i =>
  if i = 0 then { performError := some 7, responseCode := Except.ok 0, body := [] }
  else { performError := none, responseCode := Except.ok 500, body := [] }

/-- A transport answering 200 with the single byte `0xFF`, which is not
valid UTF-8. -/
def transportBadUtf8 : Nat → Attempt := fun _ =>
  { performError := none, responseCode := Except.ok 200, body := [255] }

/-- A client configuration used for concrete instances. -/
def sampleClient : WechatpayClient :=
  { appid := "wxd930ea5d5a258f4f", mch_id := "10000100",
    api_key := sampleApiKey, notify_url := "https://example.invalid/notify", cert := "" }

/-! ## Theorems -/

set_option maxRecDepth 100000 in
/-- C1: signing the documented parameter table with the documented
secret key yields exactly `9A0A8659F005D6984697E2CA0A9CF3B7`: the
sorted non-empty non-reserved pairs are form-url-encoded, `key=<secret>`
is appended, and the MD5 digest is rendered as 32 uppercase hex
characters. -/
theorem claim_C1_sign_vector :
    get_sign sampleSignTable sampleApiKey = "9A0A8659F005D6984697E2CA0A9CF3B7" := by
  rfl

set_option maxRecDepth 100000 in
/-- C2 counterexample: decoding the sample gateway response does not
associate `total_fee` with `1` — the element's value is plain text, and
`from_xml_str` stores values only on CDATA events, so the key is absent
from the result. -/
theorem claim_C2_counterexample :
    lookupParam (from_xml_str sampleResponseXml) "total_fee" ≠ some "1" := by
  intro h
  have hmap : lookupParam (from_xml_str sampleResponseXml) "total_fee" = none := by rfl
  rw [hmap] at h
  exact Option.noConfusion h

set_option maxRecDepth 100000 in
/-- C2 amended: decoding associates, on each CDATA event only, the
value with the most recently opened element's local name — plain text
content is discarded — so the sample gateway response yields
`appid = wx2421b1c4370ec43b` and `trade_type = APP` (and the other
CDATA-wrapped fields), but no `total_fee` entry. -/
theorem claim_C2_cdata_decode :
    lookupParam (from_xml_str sampleResponseXml) "return_code" = some "SUCCESS" ∧
    lookupParam (from_xml_str sampleResponseXml) "appid" = some "wx2421b1c4370ec43b" ∧
    lookupParam (from_xml_str sampleResponseXml) "trade_type" = some "APP" ∧
    lookupParam (from_xml_str sampleResponseXml) "attach" = some "订单额外描述" ∧
    lookupParam (from_xml_str sampleResponseXml) "total_fee" = none := by
  have h : from_xml_str sampleResponseXml =
      [("appid", "wx2421b1c4370ec43b"), ("attach", "订单额外描述"),
       ("bank_type", "CCB_DEBIT"), ("device_info", "1000"), ("fee_type", "CNY"),
       ("is_subscribe", "Y"), ("mch_id", "10000100"), ("nonce_str", "TN55wO9Pba5yENl8"),
       ("openid", "oUpF8uN95-Ptaags6E_roPHg7AG0"), ("out_trade_no", "1415757673"),
       ("result_code", "SUCCESS"), ("return_code", "SUCCESS"), ("return_msg", "OK"),
       ("sign", "BDF0099C15FF7BC6B1585FBB110AB635"), ("time_end", "20141111170043"),
       ("trade_state", "SUCCESS"), ("trade_type", "APP"),
       ("transaction_id", "1008450740201411110005820873")] := by rfl
  refine ⟨?_, ?_, ?_, ?_, ?_⟩ <;> rw [h] <;> rfl

set_option maxRecDepth 100000 in
/-- C3 counterexample: encoding the one-entry table
`appid ↦ wx2421b1c4370ec43b` and decoding the result does not reproduce
the table — the encoder emits plain character data, which the decoder
ignores. -/
theorem claim_C3_counterexample :
    from_xml_str (to_xml_str (tableOf [("appid", "wx2421b1c4370ec43b")])) ≠
      tableOf [("appid", "wx2421b1c4370ec43b")] := by
  decide

set_option maxRecDepth 100000 in
/-- C4 counterexample: inserting the empty-valued entry `a ↦ ""` into
the table `{a ↦ 1}` replaces the non-empty value and removes `a` from
the signing input, so the signature changes. -/
theorem claim_C4_counterexample :
    get_sign (insertPair "a" "" (tableOf [("a", "1")])) "secret" ≠
      get_sign (tableOf [("a", "1")]) "secret" := by
  decide

/-- `Required`-mode checking finds the first absent-or-empty key. -/
theorem check_params_required_eq_find (params : ParamTable) (keys : List String) :
    check_params params keys ParamsCheckType.Required =
      (keys.find? (fun k => getD params k "" == "")).map WechatpayError.MissingField := by
  induction keys with
  | nil => rfl
  | cons k rest ih =>
    by_cases h : getD params k "" = ""
    · simp [check_params, h, List.find?_cons_of_pos]
    · rw [check_params, if_neg h, ih, List.find?_cons_of_neg]
      simpa using h

/-- `Forbidden`-mode checking finds the first absent-or-empty key. -/
theorem check_params_forbidden_eq_find (params : ParamTable) (keys : List String) :
    check_params params keys ParamsCheckType.Forbidden =
      (keys.find? (fun k => getD params k "" == "")).map WechatpayError.RedundantField := by
  induction keys with
  | nil => rfl
  | cons k rest ih =>
    by_cases h : getD params k "" = ""
    · simp [check_params, h, List.find?_cons_of_pos]
    · rw [check_params, if_neg h, ih, List.find?_cons_of_neg]
      simpa using h

/-- C7: in `Required` mode `check_params` returns a `MissingField`
error exactly when some supplied key is absent from the table or maps
to the empty string, and the error names the first such key in the
caller-supplied order (first violation wins). -/
theorem claim_C7_required_check (params : ParamTable) (keys : List String) :
    check_params params keys ParamsCheckType.Required =
      (keys.find? (fun k => getD params k "" == "")).map WechatpayError.MissingField ∧
    ((check_params params keys ParamsCheckType.Required).isSome ↔
      ∃ k ∈ keys, getD params k "" = "") := by
  refine ⟨check_params_required_eq_find params keys, ?_⟩
  rw [check_params_required_eq_find params keys]
  simp [List.find?_isSome]

/-- C6: in `Forbidden` mode `check_params` tests each listed key by the
same absence-or-emptiness condition as in `Required` mode, returning
`RedundantField` for the first listed key whose value is absent or
empty — so a forbidden key that is set but empty counts as a violation,
while a forbidden key with a non-empty value produces no error. -/
theorem claim_C6_forbidden_check (params : ParamTable) (keys : List String) :
    check_params params keys ParamsCheckType.Forbidden =
      (keys.find? (fun k => getD params k "" == "")).map WechatpayError.RedundantField ∧
    (check_params params keys ParamsCheckType.Forbidden = none ↔
      check_params params keys ParamsCheckType.Required = none) := by
  refine ⟨check_params_forbidden_eq_find params keys, ?_⟩
  rw [check_params_forbidden_eq_find params keys, check_params_required_eq_find params keys]
  cases keys.find? (fun k => getD params k "" == "") <;> simp

/-- Processing the event stream with break-on-error is the same as
truncating the stream at the first error and processing the remainder
in full. -/
theorem from_xml_events_eq_total (evs : List XmlEvent) :
    ∀ tag pairs, from_xml_events tag pairs evs =
      from_xml_events_total tag pairs
        (evs.takeWhile (fun e => e != XmlEvent.parseError)) := by
  induction evs with
  | nil => intro tag pairs; rfl
  | cons e rest ih =>
    intro tag pairs
    cases e with
    | startElement name => simpa [from_xml_events, from_xml_events_total] using ih name pairs
    | endElement name => simpa [from_xml_events, from_xml_events_total] using ih tag pairs
    | characters s => simpa [from_xml_events, from_xml_events_total] using ih tag pairs
    | cdata v =>
      simpa [from_xml_events, from_xml_events_total] using ih tag (insertPair tag v pairs)
    | parseError => simp [from_xml_events, from_xml_events_total]

/-- C8: `from_xml_str` is a total function into tables — it never
raises; for every input string, well-formed or not, the result is
exactly the associations accumulated from the events preceding the
first parse error (the whole stream when there is none). -/
theorem claim_C8_decode_total (s : String) :
    from_xml_str s =
      from_xml_events_total "" []
        ((xmlEvents s).takeWhile (fun e => e != XmlEvent.parseError)) := by
  exact from_xml_events_eq_total (xmlEvents s) "" []

/-- C9: whenever the caller's table has no non-empty value under the
literal key `key` — in particular whenever the caller omits the
reserved keys, as documented — `pay` and each of its four wrappers
return `RedundantField "key")` for every client, trade type, retry
budget, nonce and transport: the Forbidden pre-check flags the absent
key before signing or any network interaction. -/
theorem claim_C9_pay_always_rejects (c : WechatpayClient) (params : ParamTable)
    (tt : TradeType) (retries : Option Nat) (nonce : String) (transport : Nat → Attempt)
    (hkey : getD params "key" "" = "") :
    pay c params tt retries nonce transport =
      some (Except.error (WechatpayError.RedundantField "key")) ∧
    micro_pay c params retries nonce transport =
      some (Except.error (WechatpayError.RedundantField "key")) ∧
    jsapi_pay c params retries nonce transport =
      some (Except.error (WechatpayError.RedundantField "key")) ∧
    qrcode_pay c params retries nonce transport =
      some (Except.error (WechatpayError.RedundantField "key")) ∧
    app_pay c params retries nonce transport =
      some (Except.error (WechatpayError.RedundantField "key")) := by
  have hcheck : ∀ t : TradeType, pay c params t retries nonce transport =
      some (Except.error (WechatpayError.RedundantField "key")) := by
    intro t
    have h1 : check_params params ["key", "sign"] ParamsCheckType.Forbidden =
        some (WechatpayError.RedundantField "key") := by
      rw [check_params, if_pos hkey]
    cases t <;> rw [pay, h1] <;> decide
  exact ⟨hcheck tt, hcheck _, hcheck _, hcheck _, hcheck _⟩

/-- C9 witness: with the concrete client and a table containing only
required business fields (no `key`), `pay` rejects with
`RedundantField "key"`. -/
theorem claim_C9_witness :
    pay sampleClient (tableOf [("body", "test"), ("out_trade_no", "1415659990"),
        ("total_fee", "1"), ("spbill_create_ip", "14.23.150.211")])
      TradeType.App (some 3) "1add1a30ac87aa2db72f57a2375d8fec" transportThirdTimeLucky =
      some (Except.error (WechatpayError.RedundantField "key")) :=
  (claim_C9_pay_always_rejects sampleClient _ TradeType.App (some 3) _ _ (by decide)).1

/-- The remainder returned by `takeUntilChar` is a suffix of the
input. -/
theorem takeUntilChar_suffix (c : Char) :
    ∀ (cs pre post : List Char), takeUntilChar c cs = some (pre, post) → post <:+ cs := by
  intro cs
  induction cs with
  | nil => intro pre post h; exact absurd h (by simp [takeUntilChar])
  | cons x xs ih =>
    intro pre post h
    rw [takeUntilChar] at h
    by_cases hx : x = c
    · rw [if_pos hx] at h
      obtain ⟨-, rfl⟩ := Prod.mk.injEq .. ▸ Option.some.inj h
      exact List.suffix_cons x xs
    · rw [if_neg hx] at h
      cases hrec : takeUntilChar c xs with
      | none => rw [hrec] at h; exact absurd h (by simp)
      | some pq =>
        obtain ⟨p, q⟩ := pq
        rw [hrec] at h
        obtain ⟨-, rfl⟩ := Prod.mk.injEq .. ▸ Option.some.inj h
        exact (ih p q hrec).trans (List.suffix_cons x xs)

/-- The remainder returned by `takeUntilCDataEnd` is a suffix of the
input. -/
theorem takeUntilCDataEnd_suffix :
    ∀ (cs pre post : List Char), takeUntilCDataEnd cs = some (pre, post) → post <:+ cs := by
  intro cs
  induction cs with
  | nil => intro pre post h; exact absurd h (by simp [takeUntilCDataEnd])
  | cons x xs ih =>
    intro pre post h
    rw [takeUntilCDataEnd] at h
    by_cases hx : x = ']' ∧ xs.take 2 = [']', '>']
    · rw [if_pos hx] at h
      obtain ⟨-, rfl⟩ := Prod.mk.injEq .. ▸ Option.some.inj h
      exact (List.drop_suffix 2 xs).trans (List.suffix_cons x xs)
    · rw [if_neg hx] at h
      cases hrec : takeUntilCDataEnd xs with
      | none => rw [hrec] at h; exact absurd h (by simp)
      | some pq =>
        obtain ⟨p, q⟩ := pq
        rw [hrec] at h
        obtain ⟨-, rfl⟩ := Prod.mk.injEq .. ▸ Option.some.inj h
        exact (ih p q hrec).trans (List.suffix_cons x xs)

/-- `noBang` passes from a list to its tail. -/
theorem noBang_tail (a : Char) (l : List Char) (h : noBang (a :: l) = true) :
    noBang l = true := by
  cases l with
  | nil => rfl
  | cons b l' =>
    rw [noBang] at h
    exact (Bool.and_eq_true .. ▸ h).2

/-- `noBang` passes to suffixes. -/
theorem noBang_suffix (l₁ l₂ : List Char) (hs : l₁ <:+ l₂) (h : noBang l₂ = true) :
    noBang l₁ = true := by
  obtain ⟨pre, rfl⟩ := hs
  induction pre with
  | nil => exact h
  | cons a pre ih => exact ih (noBang_tail a _ h)

/-- Removing a head other than `<` does not affect `noBang`. -/
theorem noBang_cons_ne (c : Char) (l : List Char) (h : c ≠ '<') :
    noBang (c :: l) = noBang l := by
  cases l with
  | nil => rfl
  | cons b l' => simp [noBang, h]

/-- A `<` followed by anything but `!` contributes nothing to
`noBang`. -/
theorem noBang_lt_cons (c : Char) (l : List Char) (h : c ≠ '!') :
    noBang ('<' :: c :: l) = noBang (c :: l) := by
  simp [noBang, h]

/-- A prefix free of `<` contributes nothing to `noBang`. -/
theorem noBang_append_no_lt (xs ys : List Char) (h : '<' ∉ xs) :
    noBang (xs ++ ys) = noBang ys := by
  induction xs with
  | nil => rfl
  | cons x xs ih =>
    have hx : x ≠ '<' := fun hh => h (hh ▸ List.mem_cons_self x xs)
    rw [List.cons_append, noBang_cons_ne x _ hx]
    exact ih (fun hm => h (List.mem_cons_of_mem x hm))

/-- Escaping never emits a `<`. -/
theorem escapeChar_no_lt (c : Char) : '<' ∉ escapeChar c := by
  rw [escapeChar]
  split_ifs with h1 h2 h3 h4 h5
  · decide
  · decide
  · decide
  · decide
  · decide
  · intro hm
    rw [List.mem_singleton] at hm
    exact h1 hm.symm

/-- Escaped character data never contains a `<`. -/
theorem escapeChars_no_lt (cs : List Char) : '<' ∉ escapeChars cs := by
  induction cs with
  | nil => simp [escapeChars]
  | cons c rest ih =>
    rw [escapeChars]
    intro hm
    rcases List.mem_append.mp hm with hm | hm
    · exact escapeChar_no_lt c hm
    · exact ih hm

/-- On a character stream with no `<!` pair, the tokenizer can produce
no CDATA event, so folding its events stores nothing. -/
theorem from_xml_events_of_noBang :
    ∀ (fuel : Nat) (cs : List Char), noBang cs = true →
      ∀ (tag : String) (acc : ParamTable),
        from_xml_events tag acc (xmlEventsGo fuel cs) = acc := by
  intro fuel
  induction fuel with
  | zero => intro cs _ tag acc; rfl
  | succ fuel ih =>
    intro cs h tag acc
    cases cs with
    | nil => rfl
    | cons c rest =>
      by_cases hc : c = '<'
      · subst hc
        cases rest with
        | nil => rfl
        | cons c2 r2 =>
          by_cases h2 : c2 = '/'
          · subst h2
            have hev : xmlEventsGo (Nat.succ fuel) ('<' :: '/' :: r2) =
                match takeUntilChar '>' r2 with
                | some (name, r3) =>
                    XmlEvent.endElement (localName name) :: xmlEventsGo fuel r3
                | none => [XmlEvent.parseError] := rfl
            rw [hev]
            cases htu : takeUntilChar '>' r2 with
            | none => rfl
            | some pq =>
              obtain ⟨name, r3⟩ := pq
              have hr3 : noBang r3 = true :=
                noBang_suffix r3 _
                  (((takeUntilChar_suffix '>' r2 name r3 htu).trans
                    (List.suffix_cons '/' r2)).trans (List.suffix_cons '<' _)) h
              exact ih r3 hr3 tag acc
          · by_cases h3 : c2 = '!'
            · subst h3
              simp [noBang] at h
            · by_cases h4 : c2 = '?'
              · subst h4; rfl
              · have hev : xmlEventsGo (Nat.succ fuel) ('<' :: c2 :: r2) =
                    (if c2 = '/' then
                      match takeUntilChar '>' r2 with
                      | some (name, r3) =>
                          XmlEvent.endElement (localName name) :: xmlEventsGo fuel r3
                      | none => [XmlEvent.parseError]
                    else if c2 = '!' then
                      if r2.take 7 = "[CDATA[".data then
                        match takeUntilCDataEnd (r2.drop 7) with
                        | some (content, r3) =>
                            XmlEvent.cdata (String.mk content) :: xmlEventsGo fuel r3
                        | none => [XmlEvent.parseError]
                      else [XmlEvent.parseError]
                    else if c2 = '?' then [XmlEvent.parseError]
                    else
                      match takeUntilChar '>' (c2 :: r2) with
                      | some (name, r3) =>
                          XmlEvent.startElement (localName name) :: xmlEventsGo fuel r3
                      | none => [XmlEvent.parseError]) := rfl
                rw [hev, if_neg h2, if_neg h3, if_neg h4]
                cases htu : takeUntilChar '>' (c2 :: r2) with
                | none => rfl
                | some pq =>
                  obtain ⟨name, r3⟩ := pq
                  have hr3 : noBang r3 = true :=
                    noBang_suffix r3 _
                      ((takeUntilChar_suffix '>' (c2 :: r2) name r3 htu).trans
                        (List.suffix_cons '<' _)) h
                  exact ih r3 hr3 (localName name) acc
      · simp only [xmlEventsGo]
        rw [if_neg hc]
        have hdw : noBang ((c :: rest).dropWhile (fun x => x ≠ '<')) = true :=
          noBang_suffix _ _ (List.dropWhile_suffix _) h
        exact ih _ hdw tag acc

/-- Every child element emitted by the encoder keeps the document free
of `<!` pairs, provided the keys are non-empty and contain neither `<`
nor `!`. -/
theorem noBang_xmlItems (t : ParamTable)
    (hkeys : ∀ p ∈ t, p.1 ≠ "" ∧ '<' ∉ p.1.data ∧ '!' ∉ p.1.data) :
    ∀ tail : List Char, noBang tail = true → noBang (xmlItems t ++ tail) = true := by
  induction t with
  | nil => intro tail htail; simpa [xmlItems] using htail
  | cons p rest ih =>
    obtain ⟨k, v⟩ := p
    intro tail htail
    obtain ⟨hk0, hklt, hkbang⟩ := hkeys (k, v) (List.mem_cons_self _ _)
    have hrest : ∀ q ∈ rest, q.1 ≠ "" ∧ '<' ∉ q.1.data ∧ '!' ∉ q.1.data :=
      fun q hq => hkeys q (List.mem_cons_of_mem _ hq)
    cases hkd : k.data with
    | nil =>
      exact absurd (String.ext (hkd.trans rfl)) hk0
    | cons c ks =>
      have hc : c ≠ '!' := fun hh => hkbang (by rw [hkd, hh]; exact List.mem_cons_self _ _)
      have hklt' : '<' ∉ c :: ks := hkd ▸ hklt
      simp only [xmlItems, hkd, List.cons_append, List.append_assoc]
      rw [noBang_lt_cons c _ hc, ← List.cons_append, noBang_append_no_lt _ _ hklt']
      rw [noBang_cons_ne '>' _ (by decide)]
      rw [noBang_append_no_lt _ _ (escapeChars_no_lt v.data)]
      rw [noBang_lt_cons '/' _ (by decide), noBang_cons_ne '/' _ (by decide)]
      rw [← List.cons_append, noBang_append_no_lt _ _ hklt']
      rw [noBang_cons_ne '>' _ (by decide)]
      exact ih hrest tail htail

/-- C3 amended: for every table whose keys are non-empty flat element
names (no `<`, no `!`), decoding the encoded document produces the
empty mapping — the encoder emits plain character data, the decoder
stores only CDATA — so the round-trip reproduces the original
associations only for the empty table. -/
theorem claim_C3_roundtrip_empty (t : ParamTable)
    (hkeys : ∀ p ∈ t, p.1 ≠ "" ∧ '<' ∉ p.1.data ∧ '!' ∉ p.1.data) :
    from_xml_str (to_xml_str t) = [] := by
  rw [from_xml_str, xmlEvents]
  apply from_xml_events_of_noBang
  show noBang ('<' :: 'x' :: 'm' :: 'l' :: '>' :: (xmlItems t ++ "</xml>".data)) = true
  rw [noBang_lt_cons 'x' _ (by decide), noBang_cons_ne 'x' _ (by decide),
    noBang_cons_ne 'm' _ (by decide), noBang_cons_ne 'l' _ (by decide),
    noBang_cons_ne '>' _ (by decide)]
  exact noBang_xmlItems t hkeys _ (by decide)

/-- C3 witness: encoding then decoding a table of flat protocol fields
yields the empty mapping. -/
theorem claim_C3_witness :
    from_xml_str (to_xml_str (tableOf
      [("appid", "wx2421b1c4370ec43b"), ("body", "test")])) = [] :=
  claim_C3_roundtrip_empty _ (by decide)

/-- A key never equal to the inserted one looks up the same value
before and after the insertion. -/
theorem lookupParam_insertPair_ne (t : ParamTable) (k v k0 : String) (h : k0 ≠ k) :
    lookupParam (insertPair k v t) k0 = lookupParam t k0 := by
  induction t with
  | nil => simp [insertPair, lookupParam, h]
  | cons p rest ih =>
    obtain ⟨k1, v1⟩ := p
    rw [insertPair]
    by_cases h1 : strLt k k1
    · rw [if_pos h1, lookupParam, if_neg h]
    · rw [if_neg h1]
      by_cases h2 : k = k1
      · subst h2
        rw [if_pos rfl, lookupParam, if_neg h, lookupParam, if_neg h]
      · rw [if_neg h2, lookupParam, lookupParam]
        by_cases h3 : k0 = k1
        · rw [if_pos h3, if_pos h3]
        · rw [if_neg h3, if_neg h3, ih]

/-- The inserted key looks up the inserted value. -/
theorem lookupParam_insertPair_self (t : ParamTable) (k v : String) :
    lookupParam (insertPair k v t) k = some v := by
  induction t with
  | nil => simp [insertPair, lookupParam]
  | cons p rest ih =>
    obtain ⟨k1, v1⟩ := p
    rw [insertPair]
    by_cases h1 : strLt k k1
    · rw [if_pos h1, lookupParam, if_pos rfl]
    · rw [if_neg h1]
      by_cases h2 : k = k1
      · rw [if_pos h2, lookupParam, if_pos rfl]
      · rw [if_neg h2, lookupParam, if_neg h2, ih]

/-- Inserting an entry under a reserved name leaves the signing
selection unchanged: the entry is dropped by name, and so was whatever
it may have replaced. -/
theorem filter_signFilter_insert_reserved (t : ParamTable) (k v : String)
    (h : k = "key" ∨ k = "sign") :
    List.filter signFilter (insertPair k v t) = List.filter signFilter t := by
  have hk : ∀ w, signFilter (k, w) = false := by
    intro w
    rcases h with h | h <;> subst h <;> rfl
  induction t with
  | nil => simp [insertPair, hk]
  | cons p rest ih =>
    obtain ⟨k1, v1⟩ := p
    rw [insertPair]
    by_cases h1 : strLt k k1
    · rw [if_pos h1, List.filter_cons, hk]
      simp
    · rw [if_neg h1]
      by_cases h2 : k = k1
      · subst h2
        rw [if_pos rfl, List.filter_cons, hk, List.filter_cons, hk]
        simp
      · rw [if_neg h2, List.filter_cons, List.filter_cons, ih]

/-- Inserting an empty value for a key whose looked-up value was
already absent or empty leaves the signing selection unchanged. -/
theorem filter_signFilter_insert_empty (t : ParamTable) (k : String)
    (h : getD t k "" = "") :
    List.filter signFilter (insertPair k "" t) = List.filter signFilter t := by
  have hk : ∀ k0 : String, signFilter (k0, "") = false := by
    intro k0
    simp [signFilter]
  induction t with
  | nil => simp [insertPair, hk]
  | cons p rest ih =>
    obtain ⟨k1, v1⟩ := p
    rw [insertPair]
    by_cases h1 : strLt k k1
    · rw [if_pos h1, List.filter_cons, hk]
      simp
    · rw [if_neg h1]
      by_cases h2 : k = k1
      · subst h2
        have hv1 : v1 = "" := by
          have := h
          rw [getD, lookupParam, if_pos rfl] at this
          simpa using this
        subst hv1
        rw [if_pos rfl]
      · rw [if_neg h2, List.filter_cons, List.filter_cons]
        have hrest : getD rest k "" = "" := by
          have := h
          rw [getD, lookupParam, if_neg h2] at this
          exact this
        rw [ih hrest]

/-- Keys selected for signing are never the reserved `key`/`sign`. -/
theorem signing_keys_not_reserved (t : ParamTable) (k0 : String)
    (h : k0 ∈ (List.filter signFilter t).map (fun p => p.1)) :
    k0 ≠ "key" ∧ k0 ≠ "sign" := by
  obtain ⟨p, hp, rfl⟩ := List.mem_map.mp h
  have := (List.mem_filter.mp hp).2
  rw [signFilter] at this
  simp only [Bool.and_eq_true, bne_iff_ne, ne_eq] at this
  exact ⟨this.1.1, this.1.2⟩

/-- C4 amended: the signature is unchanged by inserting any entry under
the literal keys `key` or `sign`, and by inserting an empty-valued
entry for a key the table does not already map to a non-empty value.
(Without the proviso the claim fails: `BTreeMap::insert` replaces, so
an empty value can overwrite a non-empty one and remove that key from
the signing input — see the counterexample.) -/
theorem claim_C4_sign_insert_invariant (t : ParamTable) (k v api_key : String)
    (h : k = "key" ∨ k = "sign" ∨ (v = "" ∧ getD t k "" = "")) :
    get_sign (insertPair k v t) api_key = get_sign t api_key := by
  have hfilter : List.filter signFilter (insertPair k v t) = List.filter signFilter t := by
    rcases h with h | h | h
    · exact filter_signFilter_insert_reserved t k v (Or.inl h)
    · exact filter_signFilter_insert_reserved t k v (Or.inr h)
    · rw [h.1]
      exact filter_signFilter_insert_empty t k h.2
  have hmap : ((List.filter signFilter t).map (fun p => p.1)).map
      (fun k0 => (k0, getD (insertPair k v t) k0 "")) =
      ((List.filter signFilter t).map (fun p => p.1)).map
      (fun k0 => (k0, getD t k0 "")) := by
    apply List.map_congr_left
    intro k0 hk0
    by_cases hk0k : k0 = k
    · subst hk0k
      rcases h with h | h | h
      · exact absurd h (signing_keys_not_reserved t k0 hk0).1
      · exact absurd h (signing_keys_not_reserved t k0 hk0).2
      · rw [getD, lookupParam_insertPair_self, h.1, h.2]
        rfl
    · rw [getD, lookupParam_insertPair_ne t k v k0 hk0k]
      rfl
  rw [get_sign, get_sign, hfilter, hmap]

/-- C4 witness: inserting a `sign` entry into the documented signing
table leaves the documented signature unchanged. -/
theorem claim_C4_witness :
    get_sign (insertPair "sign" "BDF0099C15FF7BC6B1585FBB110AB635" sampleSignTable)
      sampleApiKey = get_sign sampleSignTable sampleApiKey :=
  claim_C4_sign_insert_invariant sampleSignTable "sign" "BDF0099C15FF7BC6B1585FBB110AB635"
    sampleApiKey (Or.inr (Or.inl rfl))

/-- If the attempts at `used, used+1, …, used+i-1` all fail, the one at
`used+i` succeeds within the remaining budget and its body decodes,
the loop returns that body's decoded table after exactly `i + 1` more
attempts. -/
theorem requestLoop_first_success (transport : Nat → Attempt) :
    ∀ (rem used : Nat) (err : WechatpayError) (i : Nat) (s : String),
      i < rem →
      (∀ k, k < i → isSuccess (transport (used + k)) = false) →
      isSuccess (transport (used + i)) = true →
      utf8Decode (transport (used + i)).body = some s →
      requestLoop transport rem used err =
        (some (Except.ok (from_xml_str s)), used + i + 1) := by
  intro rem
  induction rem with
  | zero =>
    intro used err i s hi
    exact absurd hi (Nat.not_lt_zero i)
  | succ m ih =>
    intro used err i s hi hfail hsucc hdec
    cases i with
    | zero =>
      rw [Nat.add_zero] at hsucc hdec
      rw [requestLoop, if_pos hsucc, hdec, Nat.add_zero]
    | succ j =>
      have h0 : isSuccess (transport used) = false := by
        have := hfail 0 (Nat.succ_pos j)
        rwa [Nat.add_zero] at this
      rw [requestLoop, if_neg (by rw [h0]; exact Bool.false_ne_true)]
      have hfail' : ∀ k, k < j → isSuccess (transport (used + 1 + k)) = false := by
        intro k hk
        have := hfail (k + 1) (by omega)
        rwa [show used + (k + 1) = used + 1 + k by omega] at this
      have hsucc' : isSuccess (transport (used + 1 + j)) = true := by
        rwa [show used + (j + 1) = used + 1 + j by omega] at hsucc
      have hdec' : utf8Decode (transport (used + 1 + j)).body = some s := by
        rwa [show used + (j + 1) = used + 1 + j by omega] at hdec
      rw [ih (used + 1) _ j s (by omega) hfail' hsucc' hdec']
      rw [show used + 1 + j + 1 = used + (j + 1) + 1 by omega]

/-- If every attempt in the remaining budget fails, the loop consumes
the whole budget and returns the accumulated error. -/
theorem requestLoop_all_fail (transport : Nat → Attempt) :
    ∀ (rem used : Nat) (err : WechatpayError),
      (∀ k, k < rem → isSuccess (transport (used + k)) = false) →
      requestLoop transport rem used err =
        (some (Except.error (finalErrFrom transport used rem err)), used + rem) := by
  intro rem
  induction rem with
  | zero => intro used err _; rfl
  | succ m ih =>
    intro used err hfail
    have h0 : isSuccess (transport used) = false := by
      have := hfail 0 (Nat.succ_pos m)
      rwa [Nat.add_zero] at this
    rw [requestLoop, if_neg (by rw [h0]; exact Bool.false_ne_true)]
    have hfail' : ∀ k, k < m → isSuccess (transport (used + 1 + k)) = false := by
      intro k hk
      have := hfail (k + 1) (by omega)
      rwa [show used + (k + 1) = used + 1 + k by omega] at this
    rw [ih (used + 1) _ hfail', finalErrFrom]
    rw [show used + 1 + m = used + (m + 1) by omega]

/-- An error-free run of attempts leaves the captured error untouched. -/
theorem finalErrFrom_no_errors (transport : Nat → Attempt) :
    ∀ (rem used : Nat) (err : WechatpayError),
      (∀ k, k < rem → (transport (used + k)).performError = none ∧
        ∃ c, (transport (used + k)).responseCode = Except.ok c) →
      finalErrFrom transport used rem err = err := by
  intro rem
  induction rem with
  | zero => intro used err _; rfl
  | succ m ih =>
    intro used err hok
    have h0 := hok 0 (Nat.succ_pos m)
    rw [Nat.add_zero] at h0
    obtain ⟨hperf, c, hcode⟩ := h0
    have hstep : attemptErr (transport used) err = err := by
      rw [attemptErr, hperf, hcode]
    rw [finalErrFrom, hstep]
    apply ih
    intro k hk
    have := hok (k + 1) (by omega)
    rwa [show used + (k + 1) = used + 1 + k by omega] at this

/-- C5: `request` runs POST attempts in order against the transport and
stops at the first attempt whose status is 200 or 201, returning that
attempt's decoded body after exactly `i + 1` attempts; when every one
of the `n` budgeted attempts fails it returns an error after exactly
`n` attempts, surfacing the error accumulated across the run — the
last transport error captured, or the generic `WechatpayError.Request`
when no transport error occurred. -/
theorem claim_C5_request_retries :
    (∀ (transport : Nat → Attempt) (api_key : String) (params : ParamTable)
        (n i : Nat) (s : String),
      i < n →
      (∀ k, k < i → isSuccess (transport k) = false) →
      isSuccess (transport i) = true →
      utf8Decode (transport i).body = some s →
      request api_key params (some n) transport =
        (some (Except.ok (from_xml_str s)), i + 1)) ∧
    (∀ (transport : Nat → Attempt) (api_key : String) (params : ParamTable) (n : Nat),
      (∀ k, k < n → isSuccess (transport k) = false) →
      request api_key params (some n) transport =
        (some (Except.error (finalErr transport n)), n)) ∧
    (∀ (transport : Nat → Attempt) (n : Nat),
      (∀ k, k < n → (transport k).performError = none ∧
        ∃ c, (transport k).responseCode = Except.ok c) →
      finalErr transport n = WechatpayError.Request) := by
  refine ⟨?_, ?_, ?_⟩
  · intro transport api_key params n i s hi hfail hsucc hdec
    rw [request]
    have := requestLoop_first_success transport n 0 WechatpayError.Request i s hi
      (by intro k hk; rw [Nat.zero_add]; exact hfail k hk)
      (by rw [Nat.zero_add]; exact hsucc)
      (by rw [Nat.zero_add]; exact hdec)
    rw [Option.getD_some] at *
    rw [this, Nat.zero_add]
  · intro transport api_key params n hfail
    rw [request]
    have := requestLoop_all_fail transport n 0 WechatpayError.Request
      (by intro k hk; rw [Nat.zero_add]; exact hfail k hk)
    rw [Option.getD_some] at *
    rw [this, Nat.zero_add, finalErr]
  · intro transport n hok
    rw [finalErr]
    exact finalErrFrom_no_errors transport n 0 WechatpayError.Request
      (by intro k hk; rw [Nat.zero_add]; exact hok k hk)

set_option maxRecDepth 100000 in
/-- C5 witness: with a budget of three attempts, a transport failing
twice then answering 200 succeeds with the third body after exactly
three attempts; a transport failing on all three attempts yields the
transport error captured on its failing run after exactly three
attempts; and an error-free all-fail run surfaces the generic error. -/
theorem claim_C5_witness :
    request sampleApiKey [] (some 3) transportThirdTimeLucky =
      (some (Except.ok (from_xml_str
        "<xml><result_code><![CDATA[SUCCESS]]></result_code></xml>")), 3) ∧
    request sampleApiKey [] (some 3) transportAlwaysFailing =
      (some (Except.error (WechatpayError.Curl 7)), 3) := by
  constructor
  · exact claim_C5_request_retries.1 transportThirdTimeLucky sampleApiKey [] 3 2
      "<xml><result_code><![CDATA[SUCCESS]]></result_code></xml>"
      (by decide)
      (by intro k hk; interval_cases k <;> decide)
      (by decide) (by decide)
  · have h := claim_C5_request_retries.2.1 transportAlwaysFailing sampleApiKey [] 3
      (by intro k hk; interval_cases k <;> decide)
    rw [show finalErr transportAlwaysFailing 3 = WechatpayError.Curl 7 from rfl] at h
    exact h

/-- C10: the success branch of `request` is not total: a transport
whose attempt returns status 200 with the non-UTF-8 body `[0xFF]` makes
`String::from_utf8(data).unwrap()` panic, so `request` does not return
a value at all (the embedding's `none` outcome). -/
theorem claim_C10_utf8_panic :
    isSuccess (transportBadUtf8 0) = true ∧
    utf8Decode (transportBadUtf8 0).body = none ∧
    (request sampleApiKey [] (some 1) transportBadUtf8).1 = none := by
  exact ⟨rfl, rfl, rfl⟩

end Wechatpay
